import Mathlib

/-!
Shallow embedding of the nfs-ganesha id-mapper cache, taken from
src/IdMapper/idmapper_cache.c together with the allocator shims of
src/include/abstract_mem.h.  The generic hash-table store and the
configuration reader are external collaborators of that file and are
modelled from their stated contracts; everything else follows the C
source line by line.  Machine time is passed in explicitly as `now`
(the C code calls time(NULL)), and the configured TTL
nfs_param.core_param.idmap_cache_timeout is the `timeout` parameter.
-/

/-- Result codes of the id mapper, the ID_MAPPER_* constants. -/
inductive Status where
  | SUCCESS
  | INVALID_ARGUMENT
  | NOT_FOUND
  | CACHE_EXPIRE
  | INSERT_MALLOC_ERROR
  | FAIL
  deriving DecidableEq, Repr

/-- Return codes of the HashTable operations that idmapper_cache.c inspects. -/
inductive HtRc where
  | SUCCESS
  | KEY_ALREADY_EXISTS
  | ERROR
  deriving DecidableEq, Repr

/-- Heap events recorded by the model: a gsh_strdup of a string, a
gsh_malloc of one struct idmap_val, and the matching gsh_free calls. -/
inductive Ev where
  | strdupStr : String → Ev
  | mallocEntry : Ev
  | freeStr : String → Ev
  | freeEntry : Ev
  deriving DecidableEq, Repr

/-- World threaded through each operation: `alloc` is the allocation oracle
(its head decides whether the next malloc/strdup succeeds, an exhausted
list means every allocation succeeds), `store` plays the same role for
store-internal failures of the hash-table collaborator, and `evs` is the
ordered log of heap events. -/
structure W where
  alloc : List Bool := []
  store : List Bool := []
  evs : List Ev := []
  deriving DecidableEq, Repr

/-- Result of running one operation of the composed program: a normal
return, or the whole process gone because abort() was reached. -/
inductive CRes (α : Type) where
  | ok : α → CRes α
  | aborted
  deriving DecidableEq, Repr

/-- Append one heap event to the log. -/
def emit (w : W) (e : Ev) : W :=
  { w with evs := w.evs ++ [e] }

/-- gsh_strdup of abstract_mem.h: duplicate the string with strdup and call
abort() when the underlying allocation fails; it never returns NULL. -/
def gsh_strdup (s : String) (w : W) : CRes (String × W) :=
  match w.alloc with
  | [] => .ok (s, emit w (.strdupStr s))
  | true :: rest => .ok (s, emit { w with alloc := rest } (.strdupStr s))
  | false :: _ => .aborted

/-- gsh_malloc of abstract_mem.h applied to one struct idmap_val: allocate
and call abort() when the allocation fails; it never returns NULL. -/
def gsh_mallocEntry (w : W) : CRes W :=
  match w.alloc with
  | [] => .ok (emit w .mallocEntry)
  | true :: rest => .ok (emit { w with alloc := rest } .mallocEntry)
  | false :: _ => .aborted

/-- Value stored in a Forward (name to id) table: struct idmap_val with the
real_id arm of its union active. -/
structure IdmapValId where
  timestamp : Int
  real_id : Nat
  deriving DecidableEq, Repr

/-- Value stored in a Reverse (id to name) table: struct idmap_val with the
name arm of its union active; the entry owns the name string. -/
structure IdmapValName where
  timestamp : Int
  name : String
  deriving DecidableEq, Repr

/-- A string-keyed table (ht_pwnam, ht_grnam). -/
abbrev FwdTable := List (String × IdmapValId)

/-- A numeric-keyed table (ht_pwuid, ht_grgid). -/
abbrev RevTable := List (Nat × IdmapValName)

/-- The direct uid to gid table (ht_uidgid). -/
abbrev UidGidTable := List (Nat × Nat)

/-- Modelled from the spec: HashTable_Get on a string-keyed table, keys
compared with strcmp. -/
def htGetS : FwdTable → String → Option IdmapValId
  | [], _ => none
  | (k0, v0) :: t, k => if k0 = k then some v0 else htGetS t k

/-- Modelled from the spec: HashTable_Get_and_Del on a string-keyed table;
it hands back the stored key buffer, the stored value, and the table
without that entry. -/
def htGetAndDelS : FwdTable → String → Option (String × IdmapValId × FwdTable)
  | [], _ => none
  | (k0, v0) :: t, k =>
    if k0 = k then some (k0, v0, t)
    else (htGetAndDelS t k).map (fun r => (r.1, r.2.1, (k0, v0) :: r.2.2))

/-- Modelled from the spec: HashTable_Test_And_Set with
HASHTABLE_SET_HOW_SET_NO_OVERWRITE on a string-keyed table; the store
oracle decides whether an attempted insert fails inside the store. -/
def htTestAndSetS (t : FwdTable) (k : String) (v : IdmapValId) (w : W) :
    HtRc × FwdTable × W :=
  if (htGetS t k).isSome then (.KEY_ALREADY_EXISTS, t, w)
  else
    match w.store with
    | [] => (.SUCCESS, (k, v) :: t, w)
    | true :: rest => (.SUCCESS, (k, v) :: t, { w with store := rest })
    | false :: rest => (.ERROR, t, { w with store := rest })

/-- Modelled from the spec: HashTable_Get on a numeric-keyed table. -/
def htGetN : RevTable → Nat → Option IdmapValName
  | [], _ => none
  | (k0, v0) :: t, k => if k0 = k then some v0 else htGetN t k

/-- Modelled from the spec: HashTable_Get_and_Del on a numeric-keyed table
(the key is the id itself, so no stored key buffer is handed back). -/
def htGetAndDelN : RevTable → Nat → Option (IdmapValName × RevTable)
  | [], _ => none
  | (k0, v0) :: t, k =>
    if k0 = k then some (v0, t)
    else (htGetAndDelN t k).map (fun r => (r.1, (k0, v0) :: r.2))

/-- Modelled from the spec: HashTable_Test_And_Set with
HASHTABLE_SET_HOW_SET_NO_OVERWRITE on a numeric-keyed table. -/
def htTestAndSetN (t : RevTable) (k : Nat) (v : IdmapValName) (w : W) :
    HtRc × RevTable × W :=
  if (htGetN t k).isSome then (.KEY_ALREADY_EXISTS, t, w)
  else
    match w.store with
    | [] => (.SUCCESS, (k, v) :: t, w)
    | true :: rest => (.SUCCESS, (k, v) :: t, { w with store := rest })
    | false :: rest => (.ERROR, t, { w with store := rest })

/-- Modelled from the spec: HashTable_Get on the direct uid to gid table. -/
def htGetU : UidGidTable → Nat → Option Nat
  | [], _ => none
  | (k0, v0) :: t, k => if k0 = k then some v0 else htGetU t k

/-- Remove a uid key from the direct table. -/
def htDelU (t : UidGidTable) (k : Nat) : UidGidTable :=
  t.filter (fun p => p.1 != k)

/-- Modelled from the spec: HashTable_Test_And_Set with
HASHTABLE_SET_HOW_SET_OVERWRITE on the direct uid to gid table. -/
def htSetOverwriteU (t : UidGidTable) (k v : Nat) (w : W) :
    HtRc × UidGidTable × W :=
  match w.store with
  | [] => (.SUCCESS, (k, v) :: htDelU t k, w)
  | true :: rest => (.SUCCESS, (k, v) :: htDelU t k, { w with store := rest })
  | false :: rest => (.ERROR, t, { w with store := rest })

/-- Tail of idmap_add from its found label: HashTable_Test_And_Set with
NO_OVERWRITE; a KEY_ALREADY_EXISTS outcome is treated as success and any
other failure as ID_MAPPER_INSERT_MALLOC_ERROR, and on both of those err
paths the key string and the entry are freed. -/
def idmap_add_found (ht : FwdTable) (bk : String) (lv : IdmapValId) (w : W) :
    Status × FwdTable × W :=
  match htTestAndSetS ht bk lv w with
  | (.KEY_ALREADY_EXISTS, ht1, w1) =>
      (.SUCCESS, ht1, emit (emit w1 (.freeStr bk)) .freeEntry)
  | (.ERROR, ht1, w1) =>
      (.INSERT_MALLOC_ERROR, ht1, emit (emit w1 (.freeStr bk)) .freeEntry)
  | (.SUCCESS, ht1, w1) => (.SUCCESS, ht1, w1)

/-- idmap_add of idmapper_cache.c, the string-keyed add.  When overwrite is
set and an entry exists, HashTable_Get_and_Del removes it, its real_id and
timestamp are updated in place and it is reinserted under the same stored
key (no reallocation); otherwise the key is duplicated with gsh_strdup and
a fresh struct idmap_val is allocated with gsh_malloc before the insert.
A NULL key gives ID_MAPPER_INVALID_ARGUMENT; the NULL-table check is
subsumed because the model passes tables by value. -/
def idmap_add (ht : FwdTable) (key : Option String) (val : Nat)
    (overwrite : Bool) (now : Int) (w : W) : CRes (Status × FwdTable × W) :=
  match key with
  | none => .ok (.INVALID_ARGUMENT, ht, w)
  | some k =>
    match (if overwrite then htGetAndDelS ht k else none) with
    | some (oldKey, _oldVal, ht1) =>
        .ok (idmap_add_found ht1 oldKey ⟨now, val⟩ w)
    | none =>
        match gsh_strdup k w with
        | .aborted => .aborted
        | .ok (bk, w1) =>
          match gsh_mallocEntry w1 with
          | .aborted => .aborted
          | .ok w2 => .ok (idmap_add_found ht bk ⟨now, val⟩ w2)

/-- Tail of namemap_add from its found label; the err paths free the name
string held by the entry and then the entry itself. -/
def namemap_add_found (ht : RevTable) (k : Nat) (lv : IdmapValName) (w : W) :
    Status × RevTable × W :=
  match htTestAndSetN ht k lv w with
  | (.KEY_ALREADY_EXISTS, ht1, w1) =>
      (.SUCCESS, ht1, emit (emit w1 (.freeStr lv.name)) .freeEntry)
  | (.ERROR, ht1, w1) =>
      (.INSERT_MALLOC_ERROR, ht1, emit (emit w1 (.freeStr lv.name)) .freeEntry)
  | (.SUCCESS, ht1, w1) => (.SUCCESS, ht1, w1)

/-- namemap_add of idmapper_cache.c, the numeric-keyed add.  When overwrite
is set and an entry exists, it is removed with HashTable_Get_and_Del and
reused: the old name string is kept unchanged when it equals the new name
byte for byte, otherwise it is freed and the new name duplicated; the
timestamp is refreshed in both cases.  Without an existing entry a fresh
struct idmap_val is allocated and the name duplicated.  A NULL val gives
ID_MAPPER_INVALID_ARGUMENT. -/
def namemap_add (ht : RevTable) (key : Nat) (val : Option String)
    (overwrite : Bool) (now : Int) (w : W) : CRes (Status × RevTable × W) :=
  match val with
  | none => .ok (.INVALID_ARGUMENT, ht, w)
  | some v =>
    match (if overwrite then htGetAndDelN ht key else none) with
    | some (oldVal, ht1) =>
        if oldVal.name ≠ v then
          match gsh_strdup v (emit w (.freeStr oldVal.name)) with
          | .aborted => .aborted
          | .ok (s, w1) => .ok (namemap_add_found ht1 key ⟨now, s⟩ w1)
        else .ok (namemap_add_found ht1 key ⟨now, oldVal.name⟩ w)
    | none =>
        match gsh_mallocEntry w with
        | .aborted => .aborted
        | .ok w1 =>
          match gsh_strdup v w1 with
          | .aborted => .aborted
          | .ok (s, w2) => .ok (namemap_add_found ht key ⟨now, s⟩ w2)

/-- uidgidmap_add of idmapper_cache.c: direct uid to gid write, always with
HASHTABLE_SET_HOW_SET_OVERWRITE; the ids themselves are key and value, so
nothing is allocated. -/
def uidgidmap_add (t : UidGidTable) (key value : Nat) (w : W) :
    Status × UidGidTable × W :=
  match htSetOverwriteU t key value w with
  | (.SUCCESS, t1, w1) => (.SUCCESS, t1, w1)
  | (.KEY_ALREADY_EXISTS, t1, w1) => (.SUCCESS, t1, w1)
  | (.ERROR, t1, w1) => (.INSERT_MALLOC_ERROR, t1, w1)

/-- idmap_get of idmapper_cache.c: string-keyed lookup with the TTL check
written exactly as in the source, timestamp > now - timeout.  The out
parameter pval is the optional second component; its NULL check is
subsumed since the model always supplies an out slot. -/
def idmap_get (ht : FwdTable) (key : Option String) (timeout now : Int) :
    Status × Option Nat :=
  match key with
  | none => (.INVALID_ARGUMENT, none)
  | some k =>
    match htGetS ht k with
    | some e =>
        if e.timestamp > now - timeout then (.SUCCESS, some e.real_id)
        else (.CACHE_EXPIRE, none)
    | none => (.NOT_FOUND, none)

/-- namemap_get of idmapper_cache.c: numeric-keyed lookup with the same TTL
check; on a hit the cached name is copied to the caller buffer with
strmaxcpy, modelled as returning the name itself (no claim concerns the
buffer capacity, so the bounded copy is abstracted away). -/
def namemap_get (ht : RevTable) (key : Nat) (timeout now : Int) :
    Status × Option String :=
  match htGetN ht key with
  | some e =>
      if e.timestamp > now - timeout then (.SUCCESS, some e.name)
      else (.CACHE_EXPIRE, none)
  | none => (.NOT_FOUND, none)

/-- uidgidmap_get of idmapper_cache.c: lookup in the direct uid to gid
table; a missing entry for uid 0 is answered with gid 0 (the RPCSEC_GSS
root convention), any other missing uid gives ID_MAPPER_NOT_FOUND. -/
def uidgidmap_get (t : UidGidTable) (key : Nat) : Status × Option Nat :=
  match htGetU t key with
  | some g => (.SUCCESS, some g)
  | none => if key = 0 then (.SUCCESS, some 0) else (.NOT_FOUND, none)

/-- idmap_remove of idmapper_cache.c: HashTable_Del is called with a slot
for the stored key, which is then freed, and a NULL pointer for the stored
value, so the struct idmap_val entry is never freed. -/
def idmap_remove (ht : FwdTable) (key : Option String) (w : W) :
    Status × FwdTable × W :=
  match key with
  | none => (.INVALID_ARGUMENT, ht, w)
  | some k =>
    match htGetAndDelS ht k with
    | some (oldKey, _oldVal, ht1) => (.SUCCESS, ht1, emit w (.freeStr oldKey))
    | none => (.NOT_FOUND, ht, w)

/-- namemap_remove of idmapper_cache.c: HashTable_Del with NULL for both
the stored key and the stored value, so nothing is freed. -/
def namemap_remove (ht : RevTable) (key : Nat) : Status × RevTable :=
  match htGetAndDelN ht key with
  | some (_, ht1) => (.SUCCESS, ht1)
  | none => (.NOT_FOUND, ht)

/-- The five process-wide tables created by idmapper_init. -/
structure GState where
  pwnam : FwdTable
  pwuid : RevTable
  grnam : FwdTable
  grgid : RevTable
  uidgid : UidGidTable
  deriving DecidableEq, Repr

/-- uidmap_add of idmapper_cache.c: primary write name to uid into
ht_pwnam, reciprocal write uid to name into ht_pwuid when propagate is
set; rc1 is returned when it is not SUCCESS, else rc2 when it is not
SUCCESS, else SUCCESS. -/
def uidmap_add (key : Option String) (val : Nat) (propagate overwrite : Bool)
    (now : Int) (w : W) (g : GState) : CRes (Status × GState × W) :=
  match idmap_add g.pwnam key val overwrite now w with
  | .aborted => .aborted
  | .ok (rc1, pn, w1) =>
    if propagate then
      match namemap_add g.pwuid val key overwrite now w1 with
      | .aborted => .aborted
      | .ok (rc2, pu, w2) =>
          .ok (if rc1 ≠ .SUCCESS then rc1
               else if rc2 ≠ .SUCCESS then rc2 else .SUCCESS,
               { g with pwnam := pn, pwuid := pu }, w2)
    else
      .ok (if rc1 ≠ .SUCCESS then rc1 else .SUCCESS, { g with pwnam := pn }, w1)

/-- unamemap_add of idmapper_cache.c: primary write uid to name into
ht_pwuid, reciprocal write name to uid into ht_pwnam when propagate is
set; same return precedence as uidmap_add. -/
def unamemap_add (key : Nat) (val : Option String) (propagate overwrite : Bool)
    (now : Int) (w : W) (g : GState) : CRes (Status × GState × W) :=
  match namemap_add g.pwuid key val overwrite now w with
  | .aborted => .aborted
  | .ok (rc1, pu, w1) =>
    if propagate then
      match idmap_add g.pwnam val key overwrite now w1 with
      | .aborted => .aborted
      | .ok (rc2, pn, w2) =>
          .ok (if rc1 ≠ .SUCCESS then rc1
               else if rc2 ≠ .SUCCESS then rc2 else .SUCCESS,
               { g with pwuid := pu, pwnam := pn }, w2)
    else
      .ok (if rc1 ≠ .SUCCESS then rc1 else .SUCCESS, { g with pwuid := pu }, w1)

/-- gidmap_add of idmapper_cache.c: primary write name to gid into
ht_grnam, reciprocal write gid to name into ht_grgid when propagate is
set; same return precedence as uidmap_add. -/
def gidmap_add (key : Option String) (val : Nat) (propagate overwrite : Bool)
    (now : Int) (w : W) (g : GState) : CRes (Status × GState × W) :=
  match idmap_add g.grnam key val overwrite now w with
  | .aborted => .aborted
  | .ok (rc1, gn, w1) =>
    if propagate then
      match namemap_add g.grgid val key overwrite now w1 with
      | .aborted => .aborted
      | .ok (rc2, gg, w2) =>
          .ok (if rc1 ≠ .SUCCESS then rc1
               else if rc2 ≠ .SUCCESS then rc2 else .SUCCESS,
               { g with grnam := gn, grgid := gg }, w2)
    else
      .ok (if rc1 ≠ .SUCCESS then rc1 else .SUCCESS, { g with grnam := gn }, w1)

/-- gnamemap_add of idmapper_cache.c: writes gid to name into ht_grgid
first and name to gid into ht_grnam second, both unconditionally, with no
propagate flag; rc1, the gid to name result, is returned when it is not
SUCCESS, else rc2. -/
def gnamemap_add (key : Nat) (val : Option String) (overwrite : Bool)
    (now : Int) (w : W) (g : GState) : CRes (Status × GState × W) :=
  match namemap_add g.grgid key val overwrite now w with
  | .aborted => .aborted
  | .ok (rc1, gg, w1) =>
    match idmap_add g.grnam val key overwrite now w1 with
    | .aborted => .aborted
    | .ok (rc2, gn, w2) =>
        .ok (if rc1 ≠ .SUCCESS then rc1
             else if rc2 ≠ .SUCCESS then rc2 else .SUCCESS,
             { g with grgid := gg, grnam := gn }, w2)

/-- ULONG_MAX of the 64-bit target. -/
def ULONG_MAX : Nat := 2 ^ 64 - 1

/-- UINT_MAX. -/
def UINT_MAX : Nat := 2 ^ 32 - 1

/-- strtoul with base 10 as the C library defines it: skip leading white
space, consume an optional sign and then the longest run of decimal
digits.  When no digits are present it returns 0 and leaves errno alone;
errno is set, to ERANGE, only when the converted value overflows
ULONG_MAX, in which case ULONG_MAX is returned; a negated in-range value
wraps modulo 2^64.  The Bool component is the errno-was-set flag. -/
def strtoul10 (s : String) : Nat × Bool :=
  let cs := s.toList.dropWhile (fun c => c.isWhitespace)
  let sr : Bool × List Char :=
    match cs with
    | c :: r => if c = '-' then (true, r) else if c = '+' then (false, r) else (false, cs)
    | [] => (false, [])
  let ds := sr.2.takeWhile (fun c => c.isDigit)
  if ds = [] then (0, false)
  else
    let n := ds.foldl (fun a c => a * 10 + (c.toNat - 48)) 0
    if n > ULONG_MAX then (ULONG_MAX, true)
    else if sr.1 then ((2 ^ 64 - n) % 2 ^ 64, false)
    else (n, false)

/-- idmap_type_t: which domain a populate call targets. -/
inductive IdmapType where
  | UIDMAP_TYPE
  | GIDMAP_TYPE
  deriving DecidableEq, Repr

/-- Loop of idmap_populate over the key/value items of the configuration
block: each value string goes through strtoul base 10 and is rejected only
when errno was set or the value exceeds UINT_MAX; the pair is then written
into the forward and the reverse table with overwrite 0, stopping at the
first failure and keeping whatever was already inserted. -/
def idmap_populate_loop (items : List (String × String)) (ht : FwdTable)
    (htr : RevTable) (now : Int) (w : W) :
    CRes (Status × FwdTable × RevTable × W) :=
  match items with
  | [] => .ok (.SUCCESS, ht, htr, w)
  | (kname, kval) :: rest =>
    let pv := strtoul10 kval
    if pv.2 = true ∨ pv.1 > UINT_MAX then .ok (.INVALID_ARGUMENT, ht, htr, w)
    else
      match idmap_add ht (some kname) pv.1 false now w with
      | .aborted => .aborted
      | .ok (rc1, ht1, w1) =>
        if rc1 ≠ .SUCCESS then .ok (rc1, ht1, htr, w1)
        else
          match namemap_add htr pv.1 (some kname) false now w1 with
          | .aborted => .aborted
          | .ok (rc2, htr1, w2) =>
            if rc2 ≠ .SUCCESS then .ok (rc2, ht1, htr1, w2)
            else idmap_populate_loop rest ht1 htr1 now w2

/-- idmap_populate of idmapper_cache.c.  Modelled from the spec: the
configuration collaborator (config_ParseFile, config_FindItemByName and the
per-item iteration, which live outside this source tree) is an optional
list of (key_name, key_value) string pairs, with none standing for a
missing or unreadable file, a missing label, or a label that is not a
block, each of which makes the loader return ID_MAPPER_INVALID_ARGUMENT
before touching any table. -/
def idmap_populate (cfg : Option (List (String × String)))
    (maptype : IdmapType) (now : Int) (w : W) (g : GState) :
    CRes (Status × GState × W) :=
  match cfg with
  | none => .ok (.INVALID_ARGUMENT, g, w)
  | some items =>
    match maptype with
    | .UIDMAP_TYPE =>
      match idmap_populate_loop items g.pwnam g.pwuid now w with
      | .aborted => .aborted
      | .ok (st, ht1, htr1, w1) =>
          .ok (st, { g with pwnam := ht1, pwuid := htr1 }, w1)
    | .GIDMAP_TYPE =>
      match idmap_populate_loop items g.grnam g.grgid now w with
      | .aborted => .aborted
      | .ok (st, ht1, htr1, w1) =>
          .ok (st, { g with grnam := ht1, grgid := htr1 }, w1)

/-- uidmap_get of idmapper_cache.c. -/
def uidmap_get (g : GState) (key : Option String) (timeout now : Int) :
    Status × Option Nat :=
  idmap_get g.pwnam key timeout now

/-- unamemap_get of idmapper_cache.c. -/
def unamemap_get (g : GState) (key : Nat) (timeout now : Int) :
    Status × Option String :=
  namemap_get g.pwuid key timeout now

/-- gidmap_get of idmapper_cache.c. -/
def gidmap_get (g : GState) (key : Option String) (timeout now : Int) :
    Status × Option Nat :=
  idmap_get g.grnam key timeout now

/-- gnamemap_get of idmapper_cache.c. -/
def gnamemap_get (g : GState) (key : Nat) (timeout now : Int) :
    Status × Option String :=
  namemap_get g.grgid key timeout now

/-- An empty five-table state, as right after idmapper_init. -/
def g0 : GState := ⟨[], [], [], [], []⟩

/-- A world with no injected failures and an empty event log. -/
def w0 : W := ⟨[], [], []⟩

/-! Helper lemmas about the association-list store model. -/

theorem htGetS_eq_none_of_not_mem (ht : FwdTable) (k : String)
    (h : k ∉ ht.map Prod.fst) : htGetS ht k = none := by
  induction ht with
  | nil => rfl
  | cons p t ih =>
    obtain ⟨k0, v0⟩ := p
    simp only [List.map_cons, List.mem_cons] at h
    push_neg at h
    simp only [htGetS]
    rw [if_neg (fun hk => h.1 hk.symm)]
    exact ih h.2

theorem htGetAndDelS_eq_none (ht : FwdTable) (k : String)
    (h : htGetS ht k = none) : htGetAndDelS ht k = none := by
  induction ht with
  | nil => rfl
  | cons p t ih =>
    obtain ⟨k0, v0⟩ := p
    simp only [htGetS] at h
    by_cases hk : k0 = k
    · rw [if_pos hk] at h; exact absurd h (by simp)
    · rw [if_neg hk] at h
      simp only [htGetAndDelS]
      rw [if_neg hk, ih h]
      rfl

theorem htGetAndDelN_eq_none (ht : RevTable) (k : Nat)
    (h : htGetN ht k = none) : htGetAndDelN ht k = none := by
  induction ht with
  | nil => rfl
  | cons p t ih =>
    obtain ⟨k0, v0⟩ := p
    simp only [htGetN] at h
    by_cases hk : k0 = k
    · rw [if_pos hk] at h; exact absurd h (by simp)
    · rw [if_neg hk] at h
      simp only [htGetAndDelN]
      rw [if_neg hk, ih h]
      rfl

theorem htGetN_eq_none_of_not_mem (ht : RevTable) (k : Nat)
    (h : k ∉ ht.map Prod.fst) : htGetN ht k = none := by
  induction ht with
  | nil => rfl
  | cons p t ih =>
    obtain ⟨k0, v0⟩ := p
    simp only [List.map_cons, List.mem_cons] at h
    push_neg at h
    simp only [htGetN]
    rw [if_neg (fun hk => h.1 hk.symm)]
    exact ih h.2

theorem htGetAndDelS_of_get (ht : FwdTable) (k : String) (ov : IdmapValId)
    (h : htGetS ht k = some ov) :
    ∃ ht1, htGetAndDelS ht k = some (k, ov, ht1) ∧
      ((ht.map Prod.fst).Nodup → htGetS ht1 k = none) := by
  induction ht with
  | nil => simp [htGetS] at h
  | cons p t ih =>
    obtain ⟨k0, v0⟩ := p
    simp only [htGetS] at h
    by_cases hk : k0 = k
    · subst hk
      rw [if_pos rfl] at h
      injection h with h
      subst h
      refine ⟨t, by simp [htGetAndDelS], ?_⟩
      intro hnd
      simp only [List.map_cons, List.nodup_cons] at hnd
      exact htGetS_eq_none_of_not_mem t k0 hnd.1
    · rw [if_neg hk] at h
      obtain ⟨ht1, h1, h2⟩ := ih h
      refine ⟨(k0, v0) :: ht1, ?_, ?_⟩
      · simp only [htGetAndDelS]
        rw [if_neg hk, h1]
        rfl
      · intro hnd
        simp only [List.map_cons, List.nodup_cons] at hnd
        simp only [htGetS]
        rw [if_neg hk]
        exact h2 hnd.2

theorem htGetAndDelN_of_get (ht : RevTable) (k : Nat) (ov : IdmapValName)
    (h : htGetN ht k = some ov) :
    ∃ ht1, htGetAndDelN ht k = some (ov, ht1) ∧
      ((ht.map Prod.fst).Nodup → htGetN ht1 k = none) := by
  induction ht with
  | nil => simp [htGetN] at h
  | cons p t ih =>
    obtain ⟨k0, v0⟩ := p
    simp only [htGetN] at h
    by_cases hk : k0 = k
    · subst hk
      rw [if_pos rfl] at h
      injection h with h
      subst h
      refine ⟨t, by simp [htGetAndDelN], ?_⟩
      intro hnd
      simp only [List.map_cons, List.nodup_cons] at hnd
      exact htGetN_eq_none_of_not_mem t k0 hnd.1
    · rw [if_neg hk] at h
      obtain ⟨ht1, h1, h2⟩ := ih h
      refine ⟨(k0, v0) :: ht1, ?_, ?_⟩
      · simp only [htGetAndDelN]
        rw [if_neg hk, h1]
        rfl
      · intro hnd
        simp only [List.map_cons, List.nodup_cons] at hnd
        simp only [htGetN]
        rw [if_neg hk]
        exact h2 hnd.2

/-- C1 counterexample: at the freshness boundary now − created_at = T the
claim demands Success, but idmap_get (whose comparison timestamp >
now − timeout is strict) answers CACHE_EXPIRE; namemap_get behaves the
same way on the Reverse table. -/
theorem idmap_get_boundary_expires :
    (10 : Int) - 0 ≤ 10 ∧
    idmap_get [("alice", ⟨0, 1000⟩)] (some "alice") 10 10 = (.CACHE_EXPIRE, none) ∧
    namemap_get [(1000, ⟨0, "alice"⟩)] 1000 10 10 = (.CACHE_EXPIRE, none) := by
  refine ⟨by norm_num, rfl, rfl⟩

/-- C1 (amended): for an entry of a Forward or Reverse table, get answers
SUCCESS with the cached value exactly when now − created_at < timeout and
CACHE_EXPIRE when now − created_at ≥ timeout; get never writes, the
expired entry stays in place, and any later get with no intervening write
still answers CACHE_EXPIRE. -/
theorem get_ttl_strict_window :
    ∀ (ht : FwdTable) (k : String) (e : IdmapValId) (rht : RevTable) (nk : Nat)
      (re : IdmapValName) (T now now2 : Int),
    (htGetS ht k = some e →
      (now - e.timestamp < T → idmap_get ht (some k) T now = (.SUCCESS, some e.real_id)) ∧
      (T ≤ now - e.timestamp → idmap_get ht (some k) T now = (.CACHE_EXPIRE, none)) ∧
      (T ≤ now - e.timestamp → now ≤ now2 →
        idmap_get ht (some k) T now2 = (.CACHE_EXPIRE, none))) ∧
    (htGetN rht nk = some re →
      (now - re.timestamp < T → namemap_get rht nk T now = (.SUCCESS, some re.name)) ∧
      (T ≤ now - re.timestamp → namemap_get rht nk T now = (.CACHE_EXPIRE, none)) ∧
      (T ≤ now - re.timestamp → now ≤ now2 →
        namemap_get rht nk T now2 = (.CACHE_EXPIRE, none))) := by
  intro ht k e rht nk re T now now2
  constructor
  · intro h
    refine ⟨fun h1 => ?_, fun h1 => ?_, fun h1 h2 => ?_⟩
    · simp only [idmap_get, h]
      rw [if_pos (by omega)]
    · simp only [idmap_get, h]
      rw [if_neg (by omega)]
    · simp only [idmap_get, h]
      rw [if_neg (by omega)]
  · intro h
    refine ⟨fun h1 => ?_, fun h1 => ?_, fun h1 h2 => ?_⟩
    · simp only [namemap_get, h]
      rw [if_pos (by omega)]
    · simp only [namemap_get, h]
      rw [if_neg (by omega)]
    · simp only [namemap_get, h]
      rw [if_neg (by omega)]

/-- C1 witness: the amended TTL window evaluated on concrete tables. -/
theorem get_ttl_strict_window_witness :
    idmap_get [("a", ⟨0, 5⟩)] (some "a") 10 3 = (.SUCCESS, some 5) ∧
    idmap_get [("a", ⟨0, 5⟩)] (some "a") 10 12 = (.CACHE_EXPIRE, none) ∧
    idmap_get [("a", ⟨0, 5⟩)] (some "a") 10 15 = (.CACHE_EXPIRE, none) ∧
    namemap_get [(5, ⟨0, "a"⟩)] 5 10 3 = (.SUCCESS, some "a") := by
  refine ⟨?_, ?_, ?_, ?_⟩
  · exact ((get_ttl_strict_window [("a", ⟨0, 5⟩)] "a" ⟨0, 5⟩ [] 0 ⟨0, ""⟩ 10 3 3).1
      rfl).1 (by decide)
  · exact (((get_ttl_strict_window [("a", ⟨0, 5⟩)] "a" ⟨0, 5⟩ [] 0 ⟨0, ""⟩ 10 12 12).1
      rfl).2).1 (by decide)
  · exact (((get_ttl_strict_window [("a", ⟨0, 5⟩)] "a" ⟨0, 5⟩ [] 0 ⟨0, ""⟩ 10 12 15).1
      rfl).2).2 (by decide) (by decide)
  · exact ((get_ttl_strict_window [] "" ⟨0, 0⟩ [(5, ⟨0, "a"⟩)] 5 ⟨0, "a"⟩ 10 3 3).2
      rfl).1 (by decide)

/-- C3: uidgidmap_get answers SUCCESS with the stored gid when an entry
exists, NOT_FOUND for a missing nonzero uid, and SUCCESS 0 for missing uid
0; on the empty table get 0 is SUCCESS 0 and get 42 is NOT_FOUND. -/
theorem uidgidmap_get_spec :
    ∀ (t : UidGidTable) (uid gv : Nat),
    (htGetU t uid = some gv → uidgidmap_get t uid = (.SUCCESS, some gv)) ∧
    (htGetU t uid = none → uid ≠ 0 → uidgidmap_get t uid = (.NOT_FOUND, none)) ∧
    (htGetU t uid = none → uid = 0 → uidgidmap_get t uid = (.SUCCESS, some 0)) ∧
    uidgidmap_get [] 0 = (.SUCCESS, some 0) ∧
    uidgidmap_get [] 42 = (.NOT_FOUND, none) := by
  intro t uid gv
  refine ⟨fun h => ?_, fun h h0 => ?_, fun h h0 => ?_, by decide, by decide⟩
  · simp [uidgidmap_get, h]
  · simp [uidgidmap_get, h, h0]
  · subst h0
    simp [uidgidmap_get, h]

/-- C3 witness: the direct map read back on a concrete one-entry table. -/
theorem uidgidmap_get_spec_witness :
    uidgidmap_get [(7, 8)] 7 = (.SUCCESS, some 8) ∧
    uidgidmap_get [(7, 8)] 9 = (.NOT_FOUND, none) ∧
    uidgidmap_get [(7, 8)] 0 = (.SUCCESS, some 0) := by
  refine ⟨?_, ?_, ?_⟩
  · exact (uidgidmap_get_spec [(7, 8)] 7 8).1 (by decide)
  · exact (uidgidmap_get_spec [(7, 8)] 9 0).2.1 (by decide) (by decide)
  · exact (uidgidmap_get_spec [(7, 8)] 0 0).2.2.1 (by decide) rfl

/-- C6: an allocation failure inside gsh_strdup or gsh_malloc aborts the
whole process instead of surfacing as ID_MAPPER_INSERT_MALLOC_ERROR: with
an allocation oracle whose first (or second) allocation fails, both the
string-keyed and the numeric-keyed add end in abort() rather than in any
status return, also on the overwrite path where a changed name must be
duplicated. -/
theorem alloc_failure_aborts_process :
    idmap_add [] (some "alice") 1000 false 0 ⟨[false], [], []⟩ = .aborted ∧
    idmap_add [] (some "alice") 1000 false 0 ⟨[true, false], [], []⟩ = .aborted ∧
    namemap_add [] 1000 (some "alice") false 0 ⟨[false], [], []⟩ = .aborted ∧
    namemap_add [] 1000 (some "alice") false 0 ⟨[true, false], [], []⟩ = .aborted ∧
    namemap_add [(1000, ⟨0, "alice"⟩)] 1000 (some "bob") true 5 ⟨[false], [], []⟩ =
      .aborted := by
  refine ⟨rfl, rfl, rfl, rfl, rfl⟩

/-- C7: idmap_remove of a present key answers SUCCESS and frees the stored
key string, but hands the store a NULL slot for the value, so the struct
idmap_val entry is never freed: the event log carries exactly one freeStr
and no freeEntry, and the entry leaks.  A get afterwards answers NOT_FOUND
and removing an absent key answers NOT_FOUND changing nothing. -/
theorem remove_frees_only_key_string :
    idmap_remove [("alice", ⟨0, 1000⟩)] (some "alice") w0 =
      (.SUCCESS, [], ⟨[], [], [.freeStr "alice"]⟩) ∧
    idmap_get [] (some "alice") 10 0 = (.NOT_FOUND, none) ∧
    idmap_remove [] (some "alice") w0 = (.NOT_FOUND, [], w0) := by
  refine ⟨rfl, rfl, rfl⟩

/-- C10 counterexample: unamemap_add is a propagating wrapper in which the
reverse-direction write takes precedence, not the forward one: with a
store failure injected into the primary uid to name write while the
reciprocal forward write succeeds (the alice entry lands in ht_pwnam),
the wrapper reports the reverse write's INSERT_MALLOC_ERROR. -/
theorem unamemap_reverse_error_wins_cex :
    unamemap_add 1000 (some "alice") true false 0 ⟨[], [false], []⟩ g0 =
      .ok (.INSERT_MALLOC_ERROR,
           ⟨[("alice", ⟨0, 1000⟩)], [], [], [], []⟩,
           ⟨[], [], [.mallocEntry, .strdupStr "alice", .freeStr "alice", .freeEntry,
                     .strdupStr "alice", .mallocEntry]⟩) := rfl

/-- On an absent key idmap_add_found either inserts the entry (SUCCESS,
only the store oracle consumed) or hits a store failure
(INSERT_MALLOC_ERROR, the speculative key string and entry freed). -/
theorem idmap_add_found_absent_char (ht1 : FwdTable) (k : String)
    (lv : IdmapValId) (w : W) (habs : htGetS ht1 k = none) :
    (∃ s2, idmap_add_found ht1 k lv w =
      (.SUCCESS, (k, lv) :: ht1, { w with store := s2 })) ∨
    (∃ s2, idmap_add_found ht1 k lv w =
      (.INSERT_MALLOC_ERROR, ht1,
       emit (emit { w with store := s2 } (.freeStr k)) .freeEntry)) := by
  obtain ⟨al, st0, ev⟩ := w
  rcases st0 with _ | ⟨sb, st0⟩
  · exact Or.inl ⟨[], by simp [idmap_add_found, htTestAndSetS, habs]⟩
  · cases sb
    · exact Or.inr ⟨st0, by simp [idmap_add_found, htTestAndSetS, habs, emit]⟩
    · exact Or.inl ⟨st0, by simp [idmap_add_found, htTestAndSetS, habs]⟩

/-- On an absent key namemap_add_found either inserts the entry (SUCCESS)
or hits a store failure (INSERT_MALLOC_ERROR, the name and entry freed). -/
theorem namemap_add_found_absent_char (ht1 : RevTable) (k : Nat)
    (lv : IdmapValName) (w : W) (habs : htGetN ht1 k = none) :
    (∃ s2, namemap_add_found ht1 k lv w =
      (.SUCCESS, (k, lv) :: ht1, { w with store := s2 })) ∨
    (∃ s2, namemap_add_found ht1 k lv w =
      (.INSERT_MALLOC_ERROR, ht1,
       emit (emit { w with store := s2 } (.freeStr lv.name)) .freeEntry)) := by
  obtain ⟨al, st0, ev⟩ := w
  rcases st0 with _ | ⟨sb, st0⟩
  · exact Or.inl ⟨[], by simp [namemap_add_found, htTestAndSetN, habs]⟩
  · cases sb
    · exact Or.inr ⟨st0, by simp [namemap_add_found, htTestAndSetN, habs, emit]⟩
    · exact Or.inl ⟨st0, by simp [namemap_add_found, htTestAndSetN, habs]⟩

/-- On an absent key the string-keyed add aborts in an allocator, or
inserts a fresh entry with SUCCESS, or leaves the table alone with
INSERT_MALLOC_ERROR after a store failure. -/
theorem idmap_add_absent_char (ht : FwdTable) (k : String) (v : Nat)
    (ow : Bool) (now : Int) (w : W) (habs : htGetS ht k = none) :
    idmap_add ht (some k) v ow now w = .aborted ∨
    (∃ w2, idmap_add ht (some k) v ow now w =
        .ok (.SUCCESS, (k, ⟨now, v⟩) :: ht, w2)) ∨
    (∃ w2, idmap_add ht (some k) v ow now w =
        .ok (.INSERT_MALLOC_ERROR, ht, w2)) := by
  have hdel : htGetAndDelS ht k = none := htGetAndDelS_eq_none ht k habs
  obtain ⟨al, st0, ev⟩ := w
  rcases al with _ | ⟨b, al⟩
  · have hstep : idmap_add ht (some k) v ow now ⟨[], st0, ev⟩ =
        .ok (idmap_add_found ht k ⟨now, v⟩
              ⟨[], st0, ev ++ [.strdupStr k, .mallocEntry]⟩) := by
      simp [idmap_add, hdel, gsh_strdup, gsh_mallocEntry, emit]
    rcases idmap_add_found_absent_char ht k ⟨now, v⟩
        ⟨[], st0, ev ++ [.strdupStr k, .mallocEntry]⟩ habs with ⟨s2, hf⟩ | ⟨s2, hf⟩
    · exact Or.inr (Or.inl ⟨_, by rw [hstep, hf]⟩)
    · exact Or.inr (Or.inr ⟨_, by rw [hstep, hf]⟩)
  · cases b
    · exact Or.inl (by simp [idmap_add, hdel, gsh_strdup])
    · rcases al with _ | ⟨b2, al⟩
      · have hstep : idmap_add ht (some k) v ow now ⟨[true], st0, ev⟩ =
            .ok (idmap_add_found ht k ⟨now, v⟩
                  ⟨[], st0, ev ++ [.strdupStr k, .mallocEntry]⟩) := by
          simp [idmap_add, hdel, gsh_strdup, gsh_mallocEntry, emit]
        rcases idmap_add_found_absent_char ht k ⟨now, v⟩
            ⟨[], st0, ev ++ [.strdupStr k, .mallocEntry]⟩ habs with ⟨s2, hf⟩ | ⟨s2, hf⟩
        · exact Or.inr (Or.inl ⟨_, by rw [hstep, hf]⟩)
        · exact Or.inr (Or.inr ⟨_, by rw [hstep, hf]⟩)
      · cases b2
        · exact Or.inl (by simp [idmap_add, hdel, gsh_strdup, gsh_mallocEntry, emit])
        · have hstep : idmap_add ht (some k) v ow now ⟨true :: true :: al, st0, ev⟩ =
              .ok (idmap_add_found ht k ⟨now, v⟩
                    ⟨al, st0, ev ++ [.strdupStr k, .mallocEntry]⟩) := by
            simp [idmap_add, hdel, gsh_strdup, gsh_mallocEntry, emit]
          rcases idmap_add_found_absent_char ht k ⟨now, v⟩
              ⟨al, st0, ev ++ [.strdupStr k, .mallocEntry]⟩ habs with ⟨s2, hf⟩ | ⟨s2, hf⟩
          · exact Or.inr (Or.inl ⟨_, by rw [hstep, hf]⟩)
          · exact Or.inr (Or.inr ⟨_, by rw [hstep, hf]⟩)

/-- With overwrite set and the key present, the string-keyed add removes
the entry with HashTable_Get_and_Del and runs the found tail on the reused
stored key and the refreshed entry. -/
theorem idmap_add_present_ow (ht : FwdTable) (k : String) (v : Nat)
    (now : Int) (w : W) (ov : IdmapValId) (hpres : htGetS ht k = some ov) :
    ∃ ht1, htGetAndDelS ht k = some (k, ov, ht1) ∧
      idmap_add ht (some k) v true now w = .ok (idmap_add_found ht1 k ⟨now, v⟩ w) ∧
      ((ht.map Prod.fst).Nodup → htGetS ht1 k = none) := by
  obtain ⟨ht1, h1, h2⟩ := htGetAndDelS_of_get ht k ov hpres
  exact ⟨ht1, h1, by simp [idmap_add, h1], h2⟩

/-- Reading back a just-written head entry at the instant of the write is
a cache hit whenever the configured timeout is positive. -/
theorem idmap_get_cons_now (ht : FwdTable) (k : String) (v : Nat)
    (T now : Int) (hT : 0 < T) :
    idmap_get ((k, ⟨now, v⟩) :: ht) (some k) T now = (.SUCCESS, some v) := by
  have hcond : now > now - T := by omega
  simp [idmap_get, htGetS, hcond]

/-- C2: after a successful string-keyed add — a fresh insert on an absent
key with overwrite clear, or an overwrite of an existing entry — an
immediate get at the same wall-clock instant answers SUCCESS with the
value just written, for any positive configured timeout; in particular the
overwrite has reset the freshness window regardless of how stale the
previous entry was. -/
theorem add_then_get_returns_value :
    ∀ (ht : FwdTable) (k : String) (v : Nat) (T now : Int) (w w2 : W)
      (ht2 : FwdTable),
    0 < T →
    ((htGetS ht k = none →
       idmap_add ht (some k) v false now w = .ok (.SUCCESS, ht2, w2) →
       idmap_get ht2 (some k) T now = (.SUCCESS, some v)) ∧
     ((ht.map Prod.fst).Nodup → (htGetS ht k).isSome = true →
       idmap_add ht (some k) v true now w = .ok (.SUCCESS, ht2, w2) →
       idmap_get ht2 (some k) T now = (.SUCCESS, some v))) := by
  intro ht k v T now w w2 ht2 hT
  constructor
  · intro habs hAdd
    rcases idmap_add_absent_char ht k v false now w habs with h | ⟨w3, h⟩ | ⟨w3, h⟩
    · rw [h] at hAdd
      exact absurd hAdd (by simp)
    · rw [h] at hAdd
      simp only [CRes.ok.injEq, Prod.mk.injEq] at hAdd
      obtain ⟨-, hht, -⟩ := hAdd
      subst hht
      exact idmap_get_cons_now ht k v T now hT
    · rw [h] at hAdd
      simp at hAdd
  · intro hnd hsome hAdd
    obtain ⟨ov, hov⟩ := Option.isSome_iff_exists.mp hsome
    obtain ⟨ht1, hgad, heq, habs1⟩ := idmap_add_present_ow ht k v now w ov hov
    rw [heq] at hAdd
    rcases idmap_add_found_absent_char ht1 k ⟨now, v⟩ w (habs1 hnd) with
      ⟨s2, hf⟩ | ⟨s2, hf⟩
    · rw [hf] at hAdd
      simp only [CRes.ok.injEq, Prod.mk.injEq] at hAdd
      obtain ⟨-, hht, -⟩ := hAdd
      subst hht
      exact idmap_get_cons_now ht1 k v T now hT
    · rw [hf] at hAdd
      simp at hAdd

/-- C2 witness: a fresh insert and an overwrite, each followed by a get at
the same instant, on concrete tables. -/
theorem add_then_get_returns_value_witness :
    idmap_get [("alice", ⟨0, 1000⟩)] (some "alice") 1 0 = (.SUCCESS, some 1000) ∧
    idmap_get [("alice", ⟨0, 2000⟩)] (some "alice") 1 0 = (.SUCCESS, some 2000) := by
  constructor
  · exact (add_then_get_returns_value [] "alice" 1000 1 0 w0
      ⟨[], [], [.strdupStr "alice", .mallocEntry]⟩ [("alice", ⟨0, 1000⟩)]
      (by decide)).1 rfl rfl
  · exact (add_then_get_returns_value [("alice", ⟨0, 7⟩)] "alice" 2000 1 0 w0
      w0 [("alice", ⟨0, 2000⟩)] (by decide)).2 (by decide) rfl rfl

/-- With overwrite set and the key present, the numeric-keyed add removes
the entry with HashTable_Get_and_Del and reuses it: same name kept as is,
changed name freed and the new one duplicated, then the found tail runs. -/
theorem namemap_add_present_ow (ht : RevTable) (key : Nat) (v : String)
    (now : Int) (w : W) (old : IdmapValName) (hpres : htGetN ht key = some old) :
    ∃ ht1, htGetAndDelN ht key = some (old, ht1) ∧
      ((ht.map Prod.fst).Nodup → htGetN ht1 key = none) ∧
      (old.name = v →
        namemap_add ht key (some v) true now w =
          .ok (namemap_add_found ht1 key ⟨now, old.name⟩ w)) ∧
      (old.name ≠ v →
        namemap_add ht key (some v) true now w =
          match gsh_strdup v (emit w (.freeStr old.name)) with
          | .aborted => .aborted
          | .ok (s, w1) => .ok (namemap_add_found ht1 key ⟨now, s⟩ w1)) := by
  obtain ⟨ht1, h1, h2⟩ := htGetAndDelN_of_get ht key old hpres
  refine ⟨ht1, h1, h2, fun heq => ?_, fun hne => ?_⟩
  · simp [namemap_add, h1, heq]
  · simp [namemap_add, h1, hne]

/-- C8: a Reverse-table overwrite of an existing entry keeps the stored
name string untouched when the new name equals the old one byte for byte
(no free, no duplication, no allocation at all), and with a changed name
performs exactly one free of the old string followed by exactly one
duplication of the new one; in both cases the reinserted entry carries the
refreshed timestamp. -/
theorem namemap_overwrite_string_reuse :
    ∀ (ht : RevTable) (key : Nat) (old : IdmapValName) (v : String) (now : Int)
      (w w2 : W) (ht2 : RevTable),
    (ht.map Prod.fst).Nodup →
    htGetN ht key = some old →
    ((old.name = v →
       namemap_add ht key (some v) true now w = .ok (.SUCCESS, ht2, w2) →
       w2.evs = w.evs ∧ w2.alloc = w.alloc ∧ htGetN ht2 key = some ⟨now, old.name⟩) ∧
     (old.name ≠ v →
       namemap_add ht key (some v) true now w = .ok (.SUCCESS, ht2, w2) →
       w2.evs = w.evs ++ [.freeStr old.name, .strdupStr v] ∧
       htGetN ht2 key = some ⟨now, v⟩)) := by
  intro ht key old v now w w2 ht2 hnd hpres
  obtain ⟨ht1, hgad, habs1, hcase_eq, hcase_ne⟩ :=
    namemap_add_present_ow ht key v now w old hpres
  constructor
  · intro heq hAdd
    rw [hcase_eq heq] at hAdd
    rcases namemap_add_found_absent_char ht1 key ⟨now, old.name⟩ w (habs1 hnd) with
      ⟨s2, hf⟩ | ⟨s2, hf⟩
    · rw [hf] at hAdd
      simp only [CRes.ok.injEq, Prod.mk.injEq] at hAdd
      obtain ⟨-, hht, hw⟩ := hAdd
      subst hht
      subst hw
      refine ⟨rfl, rfl, ?_⟩
      simp [htGetN]
    · rw [hf] at hAdd
      simp at hAdd
  · intro hne hAdd
    rw [hcase_ne hne] at hAdd
    obtain ⟨al, st0, ev⟩ := w
    rcases al with _ | ⟨b, al⟩
    · simp only [gsh_strdup, emit] at hAdd
      rcases namemap_add_found_absent_char ht1 key ⟨now, v⟩
          ⟨[], st0, ev ++ [.freeStr old.name] ++ [.strdupStr v]⟩ (habs1 hnd) with
        ⟨s2, hf⟩ | ⟨s2, hf⟩
      · rw [hf] at hAdd
        simp only [CRes.ok.injEq, Prod.mk.injEq] at hAdd
        obtain ⟨-, hht, hw⟩ := hAdd
        subst hht
        subst hw
        refine ⟨by simp, ?_⟩
        simp [htGetN]
      · rw [hf] at hAdd
        simp at hAdd
    · cases b
      · simp only [gsh_strdup, emit] at hAdd
        exact absurd hAdd (by simp)
      · simp only [gsh_strdup, emit] at hAdd
        rcases namemap_add_found_absent_char ht1 key ⟨now, v⟩
            ⟨al, st0, ev ++ [.freeStr old.name] ++ [.strdupStr v]⟩ (habs1 hnd) with
          ⟨s2, hf⟩ | ⟨s2, hf⟩
        · rw [hf] at hAdd
          simp only [CRes.ok.injEq, Prod.mk.injEq] at hAdd
          obtain ⟨-, hht, hw⟩ := hAdd
          subst hht
          subst hw
          refine ⟨by simp, ?_⟩
          simp [htGetN]
        · rw [hf] at hAdd
          simp at hAdd

/-- C8 witness: an unchanged-name overwrite and a changed-name overwrite
on a concrete one-entry Reverse table. -/
theorem namemap_overwrite_string_reuse_witness :
    ((⟨7, "alice"⟩ : IdmapValName).name = "alice" →
      namemap_add [(1000, ⟨7, "alice"⟩)] 1000 (some "alice") true 9 w0 =
        .ok (.SUCCESS, [(1000, ⟨9, "alice"⟩)], w0) →
      w0.evs = w0.evs ∧ w0.alloc = w0.alloc ∧
      htGetN [(1000, (⟨9, "alice"⟩ : IdmapValName))] 1000 = some ⟨9, "alice"⟩) ∧
    (w0.evs = w0.evs ∧ w0.alloc = w0.alloc ∧
      htGetN [(1000, (⟨9, "alice"⟩ : IdmapValName))] 1000 = some ⟨9, "alice"⟩) ∧
    (⟨[], [], [.freeStr "alice", .strdupStr "bob"]⟩ : W).evs =
        w0.evs ++ [.freeStr "alice", .strdupStr "bob"] ∧
    htGetN [(1000, (⟨9, "bob"⟩ : IdmapValName))] 1000 = some ⟨9, "bob"⟩ := by
  refine ⟨?_, ?_, ?_⟩
  · exact (namemap_overwrite_string_reuse [(1000, ⟨7, "alice"⟩)] 1000 ⟨7, "alice"⟩
      "alice" 9 w0 w0 [(1000, ⟨9, "alice"⟩)] (by decide) rfl).1
  · exact (namemap_overwrite_string_reuse [(1000, ⟨7, "alice"⟩)] 1000 ⟨7, "alice"⟩
      "alice" 9 w0 w0 [(1000, ⟨9, "alice"⟩)] (by decide) rfl).1 rfl rfl
  · exact (namemap_overwrite_string_reuse [(1000, ⟨7, "alice"⟩)] 1000 ⟨7, "alice"⟩
      "bob" 9 w0 ⟨[], [], [.freeStr "alice", .strdupStr "bob"]⟩
      [(1000, ⟨9, "bob"⟩)] (by decide) rfl).2 (by decide) rfl

/-- C9: a first-insert attempt that loses the insert-if-absent race (the
key is already present when HashTable_Test_And_Set runs) returns SUCCESS,
leaves the table exactly as it was, and frees its own speculative key and
entry (each allocation of the attempt is matched by a free in the same
call); any other store failure is mapped to INSERT_MALLOC_ERROR, again
with both speculative allocations released.  Both the string-keyed and the
numeric-keyed engine behave this way. -/
theorem losing_first_insert_idempotent :
    ∀ (ht : FwdTable) (k : String) (v : Nat) (rht : RevTable) (nk : Nat)
      (nv : String) (now : Int) (s : List Bool) (ev : List Ev),
    ((htGetS ht k).isSome = true →
       idmap_add ht (some k) v false now ⟨[], s, ev⟩ =
         .ok (.SUCCESS, ht,
              ⟨[], s, ev ++ [.strdupStr k, .mallocEntry, .freeStr k, .freeEntry]⟩)) ∧
    (htGetS ht k = none →
       idmap_add ht (some k) v false now ⟨[], false :: s, ev⟩ =
         .ok (.INSERT_MALLOC_ERROR, ht,
              ⟨[], s, ev ++ [.strdupStr k, .mallocEntry, .freeStr k, .freeEntry]⟩)) ∧
    ((htGetN rht nk).isSome = true →
       namemap_add rht nk (some nv) false now ⟨[], s, ev⟩ =
         .ok (.SUCCESS, rht,
              ⟨[], s, ev ++ [.mallocEntry, .strdupStr nv, .freeStr nv, .freeEntry]⟩)) ∧
    (htGetN rht nk = none →
       namemap_add rht nk (some nv) false now ⟨[], false :: s, ev⟩ =
         .ok (.INSERT_MALLOC_ERROR, rht,
              ⟨[], s, ev ++ [.mallocEntry, .strdupStr nv, .freeStr nv, .freeEntry]⟩)) := by
  intro ht k v rht nk nv now s ev
  refine ⟨fun h => ?_, fun h => ?_, fun h => ?_, fun h => ?_⟩ <;>
    simp [idmap_add, namemap_add, gsh_strdup, gsh_mallocEntry, idmap_add_found,
      namemap_add_found, htTestAndSetS, htTestAndSetN, emit, h, List.append_assoc]

/-- C9 witness: the race loser and the store failure evaluated on concrete
tables, for both engines. -/
theorem losing_first_insert_idempotent_witness :
    idmap_add [("alice", ⟨0, 7⟩)] (some "alice") 1000 false 3 ⟨[], [], []⟩ =
      .ok (.SUCCESS, [("alice", ⟨0, 7⟩)],
           ⟨[], [], [.strdupStr "alice", .mallocEntry, .freeStr "alice", .freeEntry]⟩) ∧
    idmap_add [] (some "bob") 1 false 0 ⟨[], [false], []⟩ =
      .ok (.INSERT_MALLOC_ERROR, [],
           ⟨[], [], [.strdupStr "bob", .mallocEntry, .freeStr "bob", .freeEntry]⟩) ∧
    namemap_add [(5, ⟨0, "eve"⟩)] 5 (some "mallory") false 3 ⟨[], [], []⟩ =
      .ok (.SUCCESS, [(5, ⟨0, "eve"⟩)],
           ⟨[], [], [.mallocEntry, .strdupStr "mallory", .freeStr "mallory", .freeEntry]⟩) ∧
    namemap_add [] 5 (some "eve") false 0 ⟨[], [false], []⟩ =
      .ok (.INSERT_MALLOC_ERROR, [],
           ⟨[], [], [.mallocEntry, .strdupStr "eve", .freeStr "eve", .freeEntry]⟩) := by
  refine ⟨?_, ?_, ?_, ?_⟩
  · exact (losing_first_insert_idempotent [("alice", ⟨0, 7⟩)] "alice" 1000 [] 0 "" 3
      [] []).1 rfl
  · exact (losing_first_insert_idempotent [] "bob" 1 [] 0 "" 0 [] []).2.1 rfl
  · exact (losing_first_insert_idempotent [] "" 0 [(5, ⟨0, "eve"⟩)] 5 "mallory" 3
      [] []).2.2.1 rfl
  · exact (losing_first_insert_idempotent [] "" 0 [] 5 "eve" 0 [] []).2.2.2 rfl

/-- C4: in each of the three propagating wrappers the primary write always
runs; with propagate clear the reciprocal table and world are untouched
and the primary status is returned as is, and with propagate set the
reciprocal write runs on the world left by the primary one, the returned
status being the primary error when the primary write failed, otherwise
the reciprocal error if any, otherwise SUCCESS. -/
theorem propagate_wrappers_precedence :
    (∀ (key : Option String) (val : Nat) (ow : Bool) (now : Int) (w w1 : W)
       (g : GState) (rc1 : Status) (pn : FwdTable),
       idmap_add g.pwnam key val ow now w = .ok (rc1, pn, w1) →
       uidmap_add key val false ow now w g =
         .ok (rc1, { g with pwnam := pn }, w1) ∧
       ∀ (w2 : W) (rc2 : Status) (pu : RevTable),
         namemap_add g.pwuid val key ow now w1 = .ok (rc2, pu, w2) →
         uidmap_add key val true ow now w g =
           .ok (if rc1 = .SUCCESS then (if rc2 = .SUCCESS then .SUCCESS else rc2)
                else rc1,
                { g with pwnam := pn, pwuid := pu }, w2)) ∧
    (∀ (nk : Nat) (nval : Option String) (ow : Bool) (now : Int) (w w1 : W)
       (g : GState) (rc1 : Status) (pu : RevTable),
       namemap_add g.pwuid nk nval ow now w = .ok (rc1, pu, w1) →
       unamemap_add nk nval false ow now w g =
         .ok (rc1, { g with pwuid := pu }, w1) ∧
       ∀ (w2 : W) (rc2 : Status) (pn : FwdTable),
         idmap_add g.pwnam nval nk ow now w1 = .ok (rc2, pn, w2) →
         unamemap_add nk nval true ow now w g =
           .ok (if rc1 = .SUCCESS then (if rc2 = .SUCCESS then .SUCCESS else rc2)
                else rc1,
                { g with pwuid := pu, pwnam := pn }, w2)) ∧
    (∀ (key : Option String) (val : Nat) (ow : Bool) (now : Int) (w w1 : W)
       (g : GState) (rc1 : Status) (gn : FwdTable),
       idmap_add g.grnam key val ow now w = .ok (rc1, gn, w1) →
       gidmap_add key val false ow now w g =
         .ok (rc1, { g with grnam := gn }, w1) ∧
       ∀ (w2 : W) (rc2 : Status) (gg : RevTable),
         namemap_add g.grgid val key ow now w1 = .ok (rc2, gg, w2) →
         gidmap_add key val true ow now w g =
           .ok (if rc1 = .SUCCESS then (if rc2 = .SUCCESS then .SUCCESS else rc2)
                else rc1,
                { g with grnam := gn, grgid := gg }, w2)) := by
  refine ⟨?_, ?_, ?_⟩
  · intro key val ow now w w1 g rc1 pn h1
    constructor
    · simp only [uidmap_add, h1]
      by_cases hr1 : rc1 = Status.SUCCESS <;> simp [hr1]
    · intro w2 rc2 pu h2
      simp only [uidmap_add, h1, h2]
      by_cases hr1 : rc1 = Status.SUCCESS <;> by_cases hr2 : rc2 = Status.SUCCESS <;>
        simp [hr1, hr2]
  · intro nk nval ow now w w1 g rc1 pu h1
    constructor
    · simp only [unamemap_add, h1]
      by_cases hr1 : rc1 = Status.SUCCESS <;> simp [hr1]
    · intro w2 rc2 pn h2
      simp only [unamemap_add, h1, h2]
      by_cases hr1 : rc1 = Status.SUCCESS <;> by_cases hr2 : rc2 = Status.SUCCESS <;>
        simp [hr1, hr2]
  · intro key val ow now w w1 g rc1 gn h1
    constructor
    · simp only [gidmap_add, h1]
      by_cases hr1 : rc1 = Status.SUCCESS <;> simp [hr1]
    · intro w2 rc2 gg h2
      simp only [gidmap_add, h1, h2]
      by_cases hr1 : rc1 = Status.SUCCESS <;> by_cases hr2 : rc2 = Status.SUCCESS <;>
        simp [hr1, hr2]

/-- C4 witness: the four wrapper shapes evaluated on concrete inputs by
applying the precedence theorem to reflexively checked primary and
reciprocal writes. -/
theorem propagate_wrappers_precedence_witness :
    uidmap_add (some "alice") 1000 false false 0 w0 g0 =
      .ok (.SUCCESS, ⟨[("alice", ⟨0, 1000⟩)], [], [], [], []⟩,
           ⟨[], [], [.strdupStr "alice", .mallocEntry]⟩) ∧
    uidmap_add (some "alice") 1000 true false 0 w0 g0 =
      .ok (.SUCCESS, ⟨[("alice", ⟨0, 1000⟩)], [(1000, ⟨0, "alice"⟩)], [], [], []⟩,
           ⟨[], [], [.strdupStr "alice", .mallocEntry, .mallocEntry,
                     .strdupStr "alice"]⟩) ∧
    unamemap_add 1000 (some "bob") false false 0 w0 g0 =
      .ok (.SUCCESS, ⟨[], [(1000, ⟨0, "bob"⟩)], [], [], []⟩,
           ⟨[], [], [.mallocEntry, .strdupStr "bob"]⟩) ∧
    gidmap_add (some "staff") 50 true false 0 w0 g0 =
      .ok (.SUCCESS, ⟨[], [], [("staff", ⟨0, 50⟩)], [(50, ⟨0, "staff"⟩)], []⟩,
           ⟨[], [], [.strdupStr "staff", .mallocEntry, .mallocEntry,
                     .strdupStr "staff"]⟩) := by
  refine ⟨?_, ?_, ?_, ?_⟩
  · simpa [g0] using (propagate_wrappers_precedence.1 (some "alice") 1000 false 0 w0
      ⟨[], [], [.strdupStr "alice", .mallocEntry]⟩ g0 .SUCCESS
      [("alice", ⟨0, 1000⟩)] rfl).1
  · simpa [g0] using (propagate_wrappers_precedence.1 (some "alice") 1000 false 0 w0
      ⟨[], [], [.strdupStr "alice", .mallocEntry]⟩ g0 .SUCCESS
      [("alice", ⟨0, 1000⟩)] rfl).2
      ⟨[], [], [.strdupStr "alice", .mallocEntry, .mallocEntry, .strdupStr "alice"]⟩
      .SUCCESS [(1000, ⟨0, "alice"⟩)] rfl
  · simpa [g0] using (propagate_wrappers_precedence.2.1 1000 (some "bob") false 0 w0
      ⟨[], [], [.mallocEntry, .strdupStr "bob"]⟩ g0 .SUCCESS
      [(1000, ⟨0, "bob"⟩)] rfl).1
  · simpa [g0] using (propagate_wrappers_precedence.2.2 (some "staff") 50 false 0 w0
      ⟨[], [], [.strdupStr "staff", .mallocEntry]⟩ g0 .SUCCESS
      [("staff", ⟨0, 50⟩)] rfl).2
      ⟨[], [], [.strdupStr "staff", .mallocEntry, .mallocEntry, .strdupStr "staff"]⟩
      .SUCCESS [(50, ⟨0, "staff"⟩)] rfl

/-- C5: the Bulk Loader does not reject non-numeric values: strtoul leaves
errno alone when no digits can be converted and returns 0, so the block
alice=1000, bob=notanumber populates both tables with alice mapped to 1000
and bob mapped to 0 and the loader answers SUCCESS instead of stopping
with INVALID_ARGUMENT at bob.  A missing file or block does give
INVALID_ARGUMENT, and a value the errno check can see (one overflowing
ULONG_MAX) stops the loop while keeping the alice entry already inserted
in both tables. -/
theorem populate_accepts_nonnumeric :
    strtoul10 "notanumber" = (0, false) ∧
    idmap_populate (some [("alice", "1000"), ("bob", "notanumber")])
        .UIDMAP_TYPE 0 w0 g0 =
      .ok (.SUCCESS,
           ⟨[("bob", ⟨0, 0⟩), ("alice", ⟨0, 1000⟩)],
            [(0, ⟨0, "bob"⟩), (1000, ⟨0, "alice"⟩)], [], [], []⟩,
           ⟨[], [], [.strdupStr "alice", .mallocEntry, .mallocEntry,
                     .strdupStr "alice", .strdupStr "bob", .mallocEntry,
                     .mallocEntry, .strdupStr "bob"]⟩) ∧
    idmap_populate none .UIDMAP_TYPE 0 w0 g0 = .ok (.INVALID_ARGUMENT, g0, w0) ∧
    idmap_populate (some [("alice", "1000"), ("bob", "99999999999999999999999999")])
        .UIDMAP_TYPE 0 w0 g0 =
      .ok (.INVALID_ARGUMENT,
           ⟨[("alice", ⟨0, 1000⟩)], [(1000, ⟨0, "alice"⟩)], [], [], []⟩,
           ⟨[], [], [.strdupStr "alice", .mallocEntry, .mallocEntry,
                     .strdupStr "alice"]⟩) := by
  refine ⟨rfl, rfl, rfl, rfl⟩

/-- C10 (amended): gnamemap_add writes gid to name into the group Reverse
table first and name to gid into the group Forward table second, both
unconditionally, and the first (reverse-direction) write's error is
returned when there is one, otherwise the second write's error if any —
the same first-write-wins precedence as the propagate wrappers, whose
first write is the forward direction in uidmap_add and gidmap_add (as the
two closed conjuncts show: there a failing forward write's error is
returned even though the reverse write succeeded) but the reverse
direction in unamemap_add. -/
theorem gnamemap_add_order_precedence :
    (∀ (key : Nat) (val : Option String) (ow : Bool) (now : Int) (w w1 w2 : W)
       (g : GState) (rc1 rc2 : Status) (gg : RevTable) (gn : FwdTable),
       namemap_add g.grgid key val ow now w = .ok (rc1, gg, w1) →
       idmap_add g.grnam val key ow now w1 = .ok (rc2, gn, w2) →
       gnamemap_add key val ow now w g =
         .ok (if rc1 = .SUCCESS then (if rc2 = .SUCCESS then .SUCCESS else rc2)
              else rc1,
              { g with grgid := gg, grnam := gn }, w2)) ∧
    uidmap_add (some "bob") 7 true false 0 ⟨[], [false], []⟩ g0 =
      .ok (.INSERT_MALLOC_ERROR,
           ⟨[], [(7, ⟨0, "bob"⟩)], [], [], []⟩,
           ⟨[], [], [.strdupStr "bob", .mallocEntry, .freeStr "bob", .freeEntry,
                     .mallocEntry, .strdupStr "bob"]⟩) ∧
    gidmap_add (some "staff") 50 true false 0 ⟨[], [false], []⟩ g0 =
      .ok (.INSERT_MALLOC_ERROR,
           ⟨[], [], [], [(50, ⟨0, "staff"⟩)], []⟩,
           ⟨[], [], [.strdupStr "staff", .mallocEntry, .freeStr "staff", .freeEntry,
                     .mallocEntry, .strdupStr "staff"]⟩) := by
  refine ⟨?_, rfl, rfl⟩
  intro key val ow now w w1 w2 g rc1 rc2 gg gn h1 h2
  simp only [gnamemap_add, h1, h2]
  by_cases hr1 : rc1 = Status.SUCCESS <;> by_cases hr2 : rc2 = Status.SUCCESS <;>
    simp [hr1, hr2]

/-- C10 witness: gnamemap_add evaluated through the order and precedence
theorem on a concrete group pair. -/
theorem gnamemap_add_order_precedence_witness :
    gnamemap_add 50 (some "staff") false 0 w0 g0 =
      .ok (.SUCCESS, ⟨[], [], [("staff", ⟨0, 50⟩)], [(50, ⟨0, "staff"⟩)], []⟩,
           ⟨[], [], [.mallocEntry, .strdupStr "staff", .strdupStr "staff",
                     .mallocEntry]⟩) := by
  simpa [g0] using gnamemap_add_order_precedence.1 50 (some "staff") false 0 w0
    ⟨[], [], [.mallocEntry, .strdupStr "staff"]⟩
    ⟨[], [], [.mallocEntry, .strdupStr "staff", .strdupStr "staff", .mallocEntry]⟩
    g0 .SUCCESS .SUCCESS [(50, ⟨0, "staff"⟩)] [("staff", ⟨0, 50⟩)] rfl rfl
